import Mathlib

/-!
Verification of the real-time voice-assistant session core (src/App.tsx and
src/types.ts / the unnamed type module).  The audio clock is modelled with
rational numbers; the Web Audio objects (AudioContext, AudioBufferSourceNode)
are modelled by their observable attributes: the context by its `currentTime`
(an `Option ℚ`, `none` while the ref is null) and each source node by a
numeric identifier held in the `audioSourcesRef` list.
-/

namespace Jarvis

/-- `Contact` from the types module. -/
structure Contact where
  name : String
  number : String
deriving DecidableEq

/-- `PhoneState` from the types module. -/
structure PhoneState where
  isInCall : Bool
  activeContact : Option Contact
  callDuration : Nat
deriving DecidableEq

/-- `Reminder` from the types module (fields `id`, `task`, `time`, `completed`). -/
structure Reminder where
  id : String
  task : String
  time : String
  completed : Bool
deriving DecidableEq

/-- `MOCK_CONTACTS` from the types module. -/
def MOCK_CONTACTS : List Contact :=
  [⟨"Mom", "9876543210"⟩, ⟨"Dad", "9123456789"⟩, ⟨"Boss", "8888888888"⟩,
   ⟨"Pepper", "7777777777"⟩, ⟨"Happy", "9999999999"⟩]

/-- An inbound tool call `{id, name, args}`; `args` is the JS object of named
string arguments, modelled as an association list (a missing key is JS
`undefined`). -/
structure ToolCall where
  id : String
  name : String
  args : List (String × String)
deriving DecidableEq

/-- The tool-response wire unit `{id, name, response: {result}}` sent by
`sendToolResponse`. -/
structure ToolResponse where
  id : String
  name : String
  result : String
deriving DecidableEq

/-- JS property lookup `args.k` on the argument object: `none` is `undefined`. -/
def getArg (args : List (String × String)) (k : String) : Option String :=
  (args.find? (fun p => p.1 == k)).map Prod.snd

/-- JS template-literal interpolation of a possibly-undefined property
(`undefined` stringifies to "undefined"). -/
def getArgD (args : List (String × String)) (k : String) : String :=
  (getArg args k).getD "undefined"

/-- The mutable state of the `App` component that the session core touches:
the refs (`audioContextRef.current?.currentTime`, `audioSourcesRef.current`,
`nextStartTimeRef.current`) and the React state cells the claims observe. -/
structure AppState where
  audioCtxTime : Option ℚ
  audioSources : List Nat
  nextStartTime : ℚ
  connected : Bool
  isSpeaking : Bool
  isVisionActive : Bool
  streamAcquired : Bool
  videoStreamAcquired : Bool
  searchResults : List (String × String)
  phone : PhoneState
  reminders : List Reminder
  weather : Option (List (String × String))
  voiceImage : Option String
deriving DecidableEq

/-- The component state as first rendered (all refs null, everything idle). -/
def initState : AppState :=
  { audioCtxTime := none
    audioSources := []
    nextStartTime := 0
    connected := false
    isSpeaking := false
    isVisionActive := false
    streamAcquired := false
    videoStreamAcquired := false
    searchResults := []
    phone := ⟨false, none, 0⟩
    reminders := []
    weather := none
    voiceImage := none }

/-- The audio branch of the `onmessage` callback (App.tsx lines 372-387):
`setIsSpeaking(true)`; push the new source node `sid` onto `audioSourcesRef`;
`startTime = max(audioContext.currentTime, nextStartTimeRef)`;
`source.start(startTime)`; `nextStartTimeRef = startTime + buffer.duration`.
`now` is the context clock at the moment of the call and `d` the decoded
buffer's duration.  Returns the scheduled start time and the new state. -/
def enqueueBuf (now d : ℚ) (sid : Nat) (s : AppState) : ℚ × AppState :=
  let st := max now s.nextStartTime
  (st, { s with audioSources := s.audioSources ++ [sid]
               , nextStartTime := st + d
               , isSpeaking := true })

/-- Iterate the audio branch over a sequence of inbound frames, each given as
(clock time at arrival, buffer duration, source id); returns the final state
and the list of (scheduled start, duration) pairs in arrival order. -/
def runEnqueues : AppState → List (ℚ × ℚ × Nat) → AppState × List (ℚ × ℚ)
  | s, [] => (s, [])
  | s, (now, d, sid) :: rest =>
    let p := enqueueBuf now d sid s
    let r := runEnqueues p.2 rest
    (r.1, (p.1, d) :: r.2)

/-- The first slot scheduled from state `s` starts no earlier than
`s.nextStartTime` (its start is a `max` with the marker). -/
theorem runEnqueues_head_ge (s : AppState) (frames : List (ℚ × ℚ × Nat)) :
    ∀ q ∈ (runEnqueues s frames).2.head?, s.nextStartTime ≤ q.1 := by
  cases frames with
  | nil => simp [runEnqueues]
  | cons f rest =>
    obtain ⟨now, d, sid⟩ := f
    intro q hq
    simp [runEnqueues, enqueueBuf, Option.mem_def] at hq
    subst hq
    exact le_max_right now s.nextStartTime

/-- C1: for every inbound frame sequence with nonnegative durations enqueued on
the playback scheduler with no interruption, each start time is
max(current clock time, marker), the marker advances by the duration, and the
resulting (start, duration) slots satisfy start(i+1) ≥ start(i) + d(i) with
nondecreasing starts. -/
theorem c1_enqueue_schedule_gapless (s : AppState) (frames : List (ℚ × ℚ × Nat))
    (hd : ∀ f ∈ frames, 0 ≤ f.2.1) :
    (∀ now d sid, (enqueueBuf now d sid s).1 = max now s.nextStartTime ∧
      (enqueueBuf now d sid s).2.nextStartTime = max now s.nextStartTime + d) ∧
    List.Chain' (fun a b : ℚ × ℚ => a.1 + a.2 ≤ b.1 ∧ a.1 ≤ b.1)
      (runEnqueues s frames).2 := by
  refine ⟨fun now d sid => ⟨rfl, rfl⟩, ?_⟩
  induction frames generalizing s with
  | nil => simp [runEnqueues]
  | cons f rest ih =>
    obtain ⟨now, d, sid⟩ := f
    have hd0 : 0 ≤ d := hd (now, d, sid) (by simp)
    have hrest := ih (enqueueBuf now d sid s).2
      (fun g hg => hd g (List.mem_cons_of_mem _ hg))
    have hgoal : (runEnqueues s ((now, d, sid) :: rest)).2 =
        (max now s.nextStartTime, d) ::
          (runEnqueues (enqueueBuf now d sid s).2 rest).2 := rfl
    rw [hgoal, List.chain'_cons']
    refine ⟨?_, hrest⟩
    intro q hq
    have h1 : (enqueueBuf now d sid s).2.nextStartTime ≤ q.1 :=
      runEnqueues_head_ge _ _ q hq
    have h2 : max now s.nextStartTime + d ≤ q.1 := h1
    exact ⟨h2, le_trans (le_add_of_nonneg_right hd0) h2⟩

/-- Witness for C1: three frames of durations 1, 1/2, 2 all arriving at clock 0
from the initial state. -/
theorem c1_enqueue_schedule_gapless_witness :
    (∀ f ∈ [((0 : ℚ), (1 : ℚ), (1 : Nat)), (0, 1/2, 2), (0, 2, 3)], 0 ≤ f.2.1) ∧
    ((∀ now d sid, (enqueueBuf now d sid initState).1 = max now initState.nextStartTime ∧
        (enqueueBuf now d sid initState).2.nextStartTime = max now initState.nextStartTime + d) ∧
      List.Chain' (fun a b : ℚ × ℚ => a.1 + a.2 ≤ b.1 ∧ a.1 ≤ b.1)
        (runEnqueues initState [((0 : ℚ), (1 : ℚ), (1 : Nat)), (0, 1/2, 2), (0, 2, 3)]).2) :=
  ⟨by norm_num,
   c1_enqueue_schedule_gapless initState
     [((0 : ℚ), (1 : ℚ), (1 : Nat)), (0, 1/2, 2), (0, 2, 3)] (by norm_num)⟩

/-- `stopAllAudio` (App.tsx lines 194-203): stop every node in
`audioSourcesRef` (each `stop()` wrapped in try/catch, so a node that already
finished is harmless), clear the array, reset `nextStartTimeRef` to the
context clock if the context ref is non-null, and `setIsSpeaking(false)`. -/
def stopAllAudio (s : AppState) : AppState :=
  { s with audioSources := []
         , nextStartTime := match s.audioCtxTime with
             | some t => t
             | none => s.nextStartTime
         , isSpeaking := false }

/-- The `interrupted` branch of `onmessage` (App.tsx line 363) just calls
`stopAllAudio` and returns. -/
def onInterrupted (s : AppState) : AppState := stopAllAudio s

/-- C2: the barge-in path stops all active slots (the active-slot set becomes
empty), resets the marker to the current clock time so that a subsequent
enqueue at any clock reading `t2 ≥ t` schedules at `t2` itself (not at the
stale marker), and is idempotent. -/
theorem c2_interrupt_stops_all_idempotent (s : AppState) (t : ℚ)
    (hctx : s.audioCtxTime = some t) :
    (onInterrupted s).audioSources = [] ∧
    (onInterrupted s).isSpeaking = false ∧
    (onInterrupted s).nextStartTime = t ∧
    onInterrupted (onInterrupted s) = onInterrupted s ∧
    (∀ t2 d sid, t ≤ t2 → (enqueueBuf t2 d sid (onInterrupted s)).1 = t2) := by
  refine ⟨rfl, rfl, by simp [onInterrupted, stopAllAudio, hctx], ?_, ?_⟩
  · simp [onInterrupted, stopAllAudio, hctx]
  · intro t2 d sid ht
    simp [onInterrupted, enqueueBuf, stopAllAudio, hctx, max_eq_left ht]

/-- A concrete mid-playback state: context clock at 2, two active slots, a
stale marker at 7, currently speaking. -/
def playingDemo : AppState :=
  { initState with
      audioCtxTime := some 2
      audioSources := [1, 2]
      nextStartTime := 7
      isSpeaking := true }

/-- Witness for C2: interrupting `playingDemo`. -/
theorem c2_interrupt_stops_all_idempotent_witness :
    playingDemo.audioCtxTime = some 2 ∧
    ((onInterrupted playingDemo).audioSources = [] ∧
      (onInterrupted playingDemo).isSpeaking = false ∧
      (onInterrupted playingDemo).nextStartTime = 2 ∧
      onInterrupted (onInterrupted playingDemo) = onInterrupted playingDemo ∧
      (∀ t2 d sid, (2 : ℚ) ≤ t2 →
        (enqueueBuf t2 d sid (onInterrupted playingDemo)).1 = t2)) :=
  ⟨rfl, c2_interrupt_stops_all_idempotent playingDemo 2 rfl⟩

/-- `source.onended` (App.tsx lines 383-386): remove this source from
`audioSourcesRef`, then `setIsSpeaking(false)` when the context still exists
and `currentTime >= nextStartTimeRef.current - 0.1`.  `now` is the context
clock when the callback fires. -/
def onEnded (sid : Nat) (now : ℚ) (s : AppState) : AppState :=
  { s with audioSources := s.audioSources.filter (fun x => x ≠ sid)
         , isSpeaking := if s.nextStartTime - 1/10 ≤ now then false else s.isSpeaking }

/-- A state where slot 1 (ending now, at clock 1) coexists with slot 2, whose
remaining scheduled audio is only 0.05 s (marker at 21/20). -/
def shortTailDemo : AppState :=
  { initState with
      audioCtxTime := some 1
      audioSources := [1, 2]
      nextStartTime := 21/20
      isSpeaking := true }

/-- Counterexample to C8: when slot 1 completes at clock 1 while slot 2 is
still active with marker 21/20, the code flips `isSpeaking` to false (the
clock is within the 0.1 s slack of the marker) even though the completing slot
is NOT the last active slot — the flip is not guarded by the active set. -/
theorem c8_isSpeaking_flip_not_last_slot :
    (onEnded 1 1 shortTailDemo).audioSources = [2] ∧
    (onEnded 1 1 shortTailDemo).isSpeaking = false := by
  constructor
  · rfl
  · simp only [onEnded, shortTailDemo]
    norm_num

/-- The clock times at which the three scenario frames arrive (all at 0), with
their durations 1, 1/2, 2 and source ids. -/
def scenarioFrames : List (ℚ × ℚ × Nat) := [(0, 1, 1), (0, 1/2, 2), (0, 2, 3)]

/-- The state after the three scenario frames are enqueued at clock 0. -/
def scenarioState : AppState :=
  (runEnqueues { initState with audioCtxTime := some 0 } scenarioFrames).1

/-- C8 (amended): on natural completion a slot is removed from the active set,
and `isSpeaking` becomes false exactly when the clock has reached
`nextStartMarker - 0.1` (or it was already false) — irrespective of whether
the completing slot was the last active one.  The scenario holds: frames of
1.0 s, 0.5 s, 2.0 s enqueued at t0 = 0 get starts 0, 1.0, 1.5; the completions
at clocks 1.0 and 1.5 leave `isSpeaking` true and the final completion at
3.5 s flips it to false with the active set empty. -/
theorem c8_onended_amended :
    (∀ sid now s, (onEnded sid now s).audioSources =
        s.audioSources.filter (fun x => x ≠ sid) ∧
      ((onEnded sid now s).isSpeaking = false ↔
        (s.nextStartTime - 1/10 ≤ now ∨ s.isSpeaking = false))) ∧
    (runEnqueues { initState with audioCtxTime := some 0 } scenarioFrames).2 =
      [(0, 1), (1, 1/2), (3/2, 2)] ∧
    scenarioState.nextStartTime = 7/2 ∧
    (onEnded 1 1 scenarioState).isSpeaking = true ∧
    (onEnded 2 (3/2) (onEnded 1 1 scenarioState)).isSpeaking = true ∧
    (onEnded 3 (7/2) (onEnded 2 (3/2) (onEnded 1 1 scenarioState))).isSpeaking = false ∧
    (onEnded 3 (7/2) (onEnded 2 (3/2) (onEnded 1 1 scenarioState))).audioSources = [] := by
  refine ⟨fun sid now s => ⟨rfl, ?_⟩, ?_, ?_, ?_, ?_, ?_, ?_⟩
  · by_cases h : s.nextStartTime - 1/10 ≤ now
    · simp only [onEnded, if_pos h]
      exact ⟨fun _ => Or.inl h, fun _ => trivial⟩
    · simp only [onEnded, if_neg h]
      constructor
      · intro hs
        exact Or.inr hs
      · intro hor
        rcases hor with h1 | h2
        · exact absurd h1 h
        · exact h2
  · simp [runEnqueues, enqueueBuf, scenarioFrames, initState]
    norm_num
  · simp [scenarioState, runEnqueues, enqueueBuf, scenarioFrames, initState]
    norm_num
  · simp only [onEnded, scenarioState, runEnqueues, enqueueBuf, scenarioFrames, initState]
    norm_num
  · simp only [onEnded, scenarioState, runEnqueues, enqueueBuf, scenarioFrames, initState]
    norm_num
  · simp only [onEnded, scenarioState, runEnqueues, enqueueBuf, scenarioFrames, initState]
    norm_num
  · simp only [onEnded, scenarioState, runEnqueues, enqueueBuf, scenarioFrames, initState]
    norm_num

/-- `disconnect` (App.tsx lines 397-409): `stopAllAudio()`, then stop the
microphone and video tracks, close the session and both audio contexts — each
through the null-safe `?.` operator, so a resource never acquired is simply
skipped and nothing can throw — then reset `connected`, `isSpeaking`,
`isVisionActive` and `searchResults`.  Closing does not null the refs, so the
ref fields are kept. -/
def disconnect (s : AppState) : AppState :=
  let s1 := stopAllAudio s
  { s1 with
      streamAcquired := false
      videoStreamAcquired := false
      connected := false
      isSpeaking := false
      isVisionActive := false
      searchResults := [] }

/-- JS `String.prototype.toLowerCase` on the ASCII contact names. -/
def lowerStr (s : String) : String := String.mk (s.data.map Char.toLower)

/-- Ambient refs read by `handleToolCall` that no tool handler mutates:
whether `sessionRef.current` is non-null when the response is sent, whether
`clientRef.current` is non-null together with the outcome of its
`generateContent` call (`Except.error e` = the awaited call threw with message
`e`; `Except.ok none` = no `inlineData` part in the response; `Except.ok
(some data)` = base64 image data), and the random id `Math.random...` would
produce for a stored reminder. -/
structure ToolCfg where
  sessionOpen : Bool
  client : Option (Except String (Option String))
  freshId : String

/-- The `switch (fc.name)` body of `handleToolCall` (App.tsx lines 205-261):
starts from `result = "Done"`, runs the matching case, and — since the switch
has NO default case — leaves `result = "Done"` for an unknown tool name.
`Except.error` models an uncaught JS exception: the only uncaught throw is
`args.contactName.toLowerCase()` in `make_call` when `contactName` is
`undefined` (`generate_image` wraps its awaited call in try/catch).  Returns
the updated component state and the `result` string. -/
def runTool (cfg : ToolCfg) (s : AppState) (fc : ToolCall) :
    Except String (AppState × String) :=
  if fc.name = "make_call" then
    match getArg fc.args "contactName" with
    | none => Except.error "TypeError: Cannot read properties of undefined"
    | some cn =>
      let contact := ((MOCK_CONTACTS.find? fun c =>
        lowerStr c.name == lowerStr cn).getD ⟨cn, "UNKNOWN"⟩)
      Except.ok ({ s with phone := ⟨true, some contact, 0⟩ },
        "Call Initiated. Info: Calling " ++ contact.name ++ " at " ++
          contact.number ++ ". Confirm this to user.")
  else if fc.name = "end_call" then
    Except.ok ({ s with phone :=
      { s.phone with isInCall := false, activeContact := none } },
      "Call disconnected. Confirm to user.")
  else if fc.name = "send_message" then
    Except.ok (s, "Message delivered to " ++ getArgD fc.args "contactName" ++
      ". Confirm to user.")
  else if fc.name = "set_reminder" then
    Except.ok ({ s with reminders := s.reminders ++
      [⟨cfg.freshId, getArgD fc.args "task",
        (getArg fc.args "time").getD "Today", false⟩] },
      "Memory stored: " ++ getArgD fc.args "task" ++ ". Confirm to user.")
  else if fc.name = "check_notifications" then
    Except.ok (s,
      "Found notifications: WhatsApp (3), Battery 89%, Meeting in 15m. Read these out.")
  else if fc.name = "screen_control" then
    Except.ok (s, "Screen action " ++ getArgD fc.args "action" ++ " executed.")
  else if fc.name = "display_weather" then
    Except.ok ({ s with weather := some fc.args },
      "Weather data for " ++ getArgD fc.args "location" ++
        " displayed on HUD. Confirm current condition to user.")
  else if fc.name = "generate_image" then
    match cfg.client with
    | none => Except.ok (s, "Done")
    | some (Except.error e) => Except.ok (s, "Image generation failed: " ++ e)
    | some (Except.ok none) => Except.ok (s, "Image generation failed to return data.")
    | some (Except.ok (some data)) =>
      Except.ok ({ s with voiceImage := some ("data:image/png;base64," ++ data) },
        "Image generated successfully and displayed on the main screen. Tell the user here it is.")
  else
    Except.ok (s, "Done")

/-- `handleToolCall` as a whole (App.tsx lines 205-268): run the switch, then
`if (sessionRef.current) sendToolResponse({id, name, response: {result}})`.
The returned list is the tool responses sent over the channel by this call
(empty when the session ref is null); an uncaught handler throw propagates and
nothing is sent. -/
def handleToolCall (cfg : ToolCfg) (s : AppState) (fc : ToolCall) :
    Except String (AppState × List ToolResponse) :=
  match runTool cfg s fc with
  | Except.error e => Except.error e
  | Except.ok (s2, result) =>
    Except.ok (s2, if cfg.sessionOpen then [⟨fc.id, fc.name, result⟩] else [])

/-- The tool-call branch of `onmessage` (App.tsx line 364):
`for (const fc of msg.toolCall.functionCalls) await handleToolCall(fc)` —
sequential, in received order; a rejected `handleToolCall` promise aborts the
loop (the async callback body has no try/catch), dropping the rest of the
batch. -/
def processBatch (cfg : ToolCfg) : AppState → List ToolCall →
    AppState × List ToolResponse
  | s, [] => (s, [])
  | s, fc :: rest =>
    match handleToolCall cfg s fc with
    | Except.error _ => (s, [])
    | Except.ok (s2, resps) =>
      let r := processBatch cfg s2 rest
      (r.1, resps ++ r.2)

/-- The tool names enumerated in `toolsDef` / the switch cases. -/
def knownToolNames : List String :=
  ["make_call", "end_call", "send_message", "set_reminder",
   "check_notifications", "screen_control", "display_weather", "generate_image"]

/-- The responses actually sent for one dispatched call (`[]` on a throw). -/
def responsesOf (r : Except String (AppState × List ToolResponse)) :
    List ToolResponse :=
  match r with
  | Except.error _ => []
  | Except.ok (_, resps) => resps

/-- A default configuration: live session, no image client. -/
def liveCfg : ToolCfg := ⟨true, none, "r1"⟩

/-- A tool call is free of the one uncaught throw in the switch when it either
is not `make_call` or carries its `contactName` argument. -/
def NoThrow (fc : ToolCall) : Prop :=
  fc.name = "make_call" → (getArg fc.args "contactName").isSome = true

/-- The switch never raises an uncaught exception on a `NoThrow` call: every
branch ends in a result string. -/
theorem runTool_ok (cfg : ToolCfg) (s : AppState) (fc : ToolCall)
    (hwf : NoThrow fc) : ∃ s2 r, runTool cfg s fc = Except.ok (s2, r) := by
  unfold runTool
  split_ifs with h1 h2 h3 h4 h5 h6 h7 h8
  · obtain ⟨cn, hcn⟩ := Option.isSome_iff_exists.mp (hwf h1)
    rw [hcn]
    exact ⟨_, _, rfl⟩
  all_goals try exact ⟨_, _, rfl⟩
  cases cfg.client with
  | none => exact ⟨_, _, rfl⟩
  | some res =>
    cases res with
    | error e => exact ⟨_, _, rfl⟩
    | ok o =>
      cases o with
      | none => exact ⟨_, _, rfl⟩
      | some d => exact ⟨_, _, rfl⟩

/-- Counterexample to C3: a `make_call` ToolCall with no `contactName`
argument makes the handler throw (`args.contactName.toLowerCase()` on
`undefined`), the exception is not caught, and NO ToolResponse is sent — the
response is dropped rather than reported as a descriptive result string. -/
theorem c3_toolresponse_dropped_on_throw :
    handleToolCall liveCfg initState ⟨"x", "make_call", []⟩ =
      Except.error "TypeError: Cannot read properties of undefined" ∧
    responsesOf (handleToolCall liveCfg initState ⟨"x", "make_call", []⟩) = [] :=
  ⟨rfl, rfl⟩

/-- C3 (amended): for every dispatched ToolCall whose handler does not throw
(the only uncaught throw is `make_call` with a missing `contactName`) and
while the session ref is non-null, exactly one ToolResponse with the matching
id and name is sent; failures inside `generate_image`'s awaited network call
are caught and reported as a descriptive result string. -/
theorem c3_toolresponse_exactly_one_amended (cfg : ToolCfg) (s : AppState)
    (fc : ToolCall) (hsess : cfg.sessionOpen = true) (hwf : NoThrow fc) :
    ∃ s2 result, handleToolCall cfg s fc =
      Except.ok (s2, [⟨fc.id, fc.name, result⟩]) := by
  obtain ⟨s2, r, hr⟩ := runTool_ok cfg s fc hwf
  refine ⟨s2, r, ?_⟩
  simp [handleToolCall, hr, hsess]

/-- Witness for C3 (amended): a well-formed `set_reminder` call on a live
session yields its single matching response. -/
theorem c3_toolresponse_exactly_one_amended_witness :
    liveCfg.sessionOpen = true ∧ NoThrow ⟨"a", "set_reminder", [("task", "buy milk")]⟩ ∧
    ∃ s2 result, handleToolCall liveCfg initState
        ⟨"a", "set_reminder", [("task", "buy milk")]⟩ =
      Except.ok (s2, [⟨"a", "set_reminder", result⟩]) :=
  ⟨rfl, by intro h; simp [NoThrow] at h,
   c3_toolresponse_exactly_one_amended liveCfg initState
     ⟨"a", "set_reminder", [("task", "buy milk")]⟩ rfl
     (by intro h; simp [NoThrow] at h)⟩

/-- Counterexample to C4: the switch has no default case, so an unknown tool
name leaves `result` at its initial value "Done"; a response IS sent, but its
result string is just "Done" — it does not state that the tool was not
recognized (it does not even contain the fragments "recogn" or "not"). -/
theorem c4_unknown_tool_result_done :
    handleToolCall liveCfg initState ⟨"b", "unknown_tool", []⟩ =
      Except.ok (initState, [⟨"b", "unknown_tool", "Done"⟩]) ∧
    ¬ "recogn".toList <:+: "Done".toList ∧ ¬ "not".toList <:+: "Done".toList := by
  refine ⟨rfl, ?_, ?_⟩ <;> decide

/-- C4 (amended): a ToolCall whose name is outside the enumerated set still
gets exactly one ToolResponse with matching id and name, but its result is the
generic default "Done", with no unknown-tool message and no state change. -/
theorem c4_unknown_tool_amended (cfg : ToolCfg) (s : AppState) (fc : ToolCall)
    (hsess : cfg.sessionOpen = true) (hname : fc.name ∉ knownToolNames) :
    handleToolCall cfg s fc = Except.ok (s, [⟨fc.id, fc.name, "Done"⟩]) := by
  simp only [knownToolNames, List.mem_cons, List.not_mem_nil, or_false, not_or] at hname
  obtain ⟨n1, n2, n3, n4, n5, n6, n7, n8⟩ := hname
  unfold handleToolCall runTool
  rw [if_neg n1, if_neg n2, if_neg n3, if_neg n4, if_neg n5, if_neg n6,
    if_neg n7, if_neg n8]
  simp [hsess]

/-- Witness for C4 (amended): the unknown tool "unknown_tool". -/
theorem c4_unknown_tool_amended_witness :
    liveCfg.sessionOpen = true ∧
    (⟨"b", "unknown_tool", []⟩ : ToolCall).name ∉ knownToolNames ∧
    handleToolCall liveCfg initState ⟨"b", "unknown_tool", []⟩ =
      Except.ok (initState, [⟨"b", "unknown_tool", "Done"⟩]) :=
  ⟨rfl, by decide,
   c4_unknown_tool_amended liveCfg initState ⟨"b", "unknown_tool", []⟩ rfl (by decide)⟩

/-- C5: an inbound tool-call batch is dispatched sequentially in the order
received and, when no handler throws and the session ref is non-null, the
sent ToolResponses carry the batch's (id, name) pairs in that same order. -/
theorem c5_batch_order_preserved (cfg : ToolCfg) (s : AppState)
    (batch : List ToolCall) (hsess : cfg.sessionOpen = true)
    (hwf : ∀ fc ∈ batch, NoThrow fc) :
    (processBatch cfg s batch).2.map (fun r => (r.id, r.name)) =
      batch.map (fun fc => (fc.id, fc.name)) := by
  induction batch generalizing s with
  | nil => rfl
  | cons fc rest ih =>
    obtain ⟨s2, r, hr⟩ := runTool_ok cfg s fc (hwf fc (by simp))
    have hh : handleToolCall cfg s fc =
        Except.ok (s2, [⟨fc.id, fc.name, r⟩]) := by
      simp [handleToolCall, hr, hsess]
    simp only [processBatch, hh]
    simp [ih s2 (fun g hg => hwf g (List.mem_cons_of_mem _ hg))]

/-- Witness for C5: the spec's two-entry batch (a reminder then an unknown
tool) on a live session. -/
theorem c5_batch_order_preserved_witness :
    liveCfg.sessionOpen = true ∧
    (∀ fc ∈ [(⟨"a", "set_reminder", [("task", "buy milk")]⟩ : ToolCall),
      ⟨"b", "unknown_tool", []⟩], NoThrow fc) ∧
    (processBatch liveCfg initState [⟨"a", "set_reminder", [("task", "buy milk")]⟩,
        ⟨"b", "unknown_tool", []⟩]).2.map (fun r => (r.id, r.name)) =
      [(⟨"a", "set_reminder", [("task", "buy milk")]⟩ : ToolCall),
        ⟨"b", "unknown_tool", []⟩].map (fun fc => (fc.id, fc.name)) :=
  ⟨rfl, by intro fc hfc h; fin_cases hfc <;> simp [NoThrow] at h ⊢,
   c5_batch_order_preserved liveCfg initState _ rfl
     (by intro fc hfc h; fin_cases hfc <;> simp [NoThrow] at h ⊢)⟩

/-- C10: a `make_call` whose `contactName` matches no mock contact
case-insensitively still succeeds — the phone state becomes in-call with the
synthetic contact (requested name, number "UNKNOWN") and the single response
confirms the call was initiated, not an error. -/
theorem c10_make_call_unknown_contact (cfg : ToolCfg) (s : AppState)
    (idStr cn : String) (hsess : cfg.sessionOpen = true)
    (hun : ∀ c ∈ MOCK_CONTACTS, lowerStr c.name ≠ lowerStr cn) :
    handleToolCall cfg s ⟨idStr, "make_call", [("contactName", cn)]⟩ =
      Except.ok ({ s with phone := ⟨true, some ⟨cn, "UNKNOWN"⟩, 0⟩ },
        [⟨idStr, "make_call",
          "Call Initiated. Info: Calling " ++ cn ++ " at " ++ "UNKNOWN" ++
            ". Confirm this to user."⟩]) := by
  have hfind : (MOCK_CONTACTS.find? fun c =>
      lowerStr c.name == lowerStr cn) = none := by
    rw [List.find?_eq_none]
    intro c hc
    simp only [beq_iff_eq]
    exact hun c hc
  have harg : getArg [("contactName", cn)] "contactName" = some cn := rfl
  unfold handleToolCall runTool
  simp only [harg, hfind, hsess]
  simp

/-- Witness for C10: calling "Thanos", who is in no mock contact list. -/
theorem c10_make_call_unknown_contact_witness :
    liveCfg.sessionOpen = true ∧
    (∀ c ∈ MOCK_CONTACTS, lowerStr c.name ≠ lowerStr "Thanos") ∧
    handleToolCall liveCfg initState ⟨"k1", "make_call", [("contactName", "Thanos")]⟩ =
      Except.ok ({ initState with phone := ⟨true, some ⟨"Thanos", "UNKNOWN"⟩, 0⟩ },
        [⟨"k1", "make_call",
          "Call Initiated. Info: Calling " ++ "Thanos" ++ " at " ++ "UNKNOWN" ++
            ". Confirm this to user."⟩]) :=
  ⟨rfl, by decide,
   c10_make_call_unknown_contact liveCfg initState "k1" "Thanos" rfl (by decide)⟩

/-- Modelled from the spec: the Frame Codec (`createPcmBlob` /
`decodeAudioData` of src/utils/audioUtils) is imported by App.tsx but its file
is not among the provided sources.  Spec section 4.1: encoding clamps each
normalized sample into [-1, 1] before quantization (clamp, not wrap). -/
def clampSample (s : ℚ) : ℚ := max (-1) (min 1 s)

/-- Modelled from the spec: quantization of one clamped sample to a signed
16-bit integer (fixed 2-byte width), full-scale 32767. -/
def quantize (s : ℚ) : ℤ := round (clampSample s * 32767)

/-- Modelled from the spec: the two little-endian bytes of the 16-bit two's
complement representation of a quantized sample. -/
def toLE (n : ℤ) : List ℕ := [(n % 65536).toNat % 256, (n % 65536).toNat / 256]

/-- Modelled from the spec: the byte encoding of a whole sample buffer
(2 bytes per sample, little-endian, in order). -/
def encodePcm (samples : List ℚ) : List ℕ :=
  (samples.map (fun s => toLE (quantize s))).flatten

/-- Modelled from the spec: read one sample back from its two little-endian
bytes (two's complement). -/
def fromLE (b0 b1 : ℕ) : ℤ :=
  if b0 + 256 * b1 < 32768 then ((b0 + 256 * b1 : ℕ) : ℤ)
  else ((b0 + 256 * b1 : ℕ) : ℤ) - 65536

/-- Modelled from the spec: decoding pairs the bytes two at a time (the
sample count is exactly the byte length divided by the fixed 2-byte width)
and maps each 16-bit integer back to a normalized sample. -/
def decodePcm : List ℕ → List ℚ
  | b0 :: b1 :: rest => ((fromLE b0 b1 : ℚ) / 32767) :: decodePcm rest
  | _ => []

/-- Serializing a 16-bit two's complement value to its little-endian bytes and
reading it back is the identity on [-32768, 32768). -/
theorem fromLE_toLE (n : ℤ) (h1 : -32768 ≤ n) (h2 : n < 32768) :
    fromLE ((n % 65536).toNat % 256) ((n % 65536).toNat / 256) = n := by
  have hm : (((n % 65536).toNat : ℤ)) = n % 65536 :=
    Int.toNat_of_nonneg (Int.emod_nonneg n (by norm_num))
  have hsum : (n % 65536).toNat % 256 + 256 * ((n % 65536).toNat / 256) =
      (n % 65536).toNat := Nat.mod_add_div _ 256
  unfold fromLE
  rw [hsum]
  split
  · omega
  · omega

/-- The quantized value always fits the signed 16-bit range (clamping). -/
theorem quantize_bounds (s : ℚ) : -32767 ≤ quantize s ∧ quantize s ≤ 32767 := by
  have h1 : -1 ≤ clampSample s := le_max_left _ _
  have h2 : clampSample s ≤ 1 := max_le (by norm_num) (min_le_left _ _)
  have hlo : (-32767 : ℚ) ≤ clampSample s * 32767 := by nlinarith
  have hhi : clampSample s * 32767 ≤ 32767 := by nlinarith
  unfold quantize
  rw [round_eq]
  constructor
  · rw [Int.le_floor]
    push_cast
    linarith
  · have : ⌊clampSample s * 32767 + 1 / 2⌋ ≤ ⌊(32767 : ℚ) + 1 / 2⌋ :=
      Int.floor_le_floor (by linarith)
    have h32 : ⌊(32767 : ℚ) + 1 / 2⌋ = 32767 := by
      rw [Int.floor_eq_iff]
      norm_num
    omega

/-- Decoding reconstructs the sample count exactly from the byte length. -/
theorem decodePcm_length (bs : List ℕ) : (decodePcm bs).length = bs.length / 2 := by
  match bs with
  | [] => rfl
  | [b] => simp [decodePcm]
  | b0 :: b1 :: rest =>
    have ih := decodePcm_length rest
    simp only [decodePcm, List.length_cons, ih]
    omega

/-- Decoding an encoded buffer recovers, in order, exactly the dequantized
value of every sample. -/
theorem decode_encode (samples : List ℚ) :
    decodePcm (encodePcm samples) =
      samples.map (fun s => ((quantize s : ℤ) : ℚ) / 32767) := by
  induction samples with
  | nil => rfl
  | cons s rest ih =>
    have hb := quantize_bounds s
    have hstep : encodePcm (s :: rest) = toLE (quantize s) ++ encodePcm rest := by
      simp [encodePcm]
    rw [hstep]
    unfold toLE
    simp only [List.cons_append, List.nil_append, decodePcm]
    have hnil : ([] : List ℕ).append (encodePcm rest) = encodePcm rest := rfl
    rw [hnil, fromLE_toLE (quantize s) (by omega) (by omega), ih]
    rfl

/-- One quantization step of round-trip error for an in-range sample. -/
theorem quantize_err (s : ℚ) (h1 : -1 ≤ s) (h2 : s ≤ 1) :
    |((quantize s : ℤ) : ℚ) / 32767 - s| ≤ 1 / 32767 := by
  have hcl : clampSample s = s := by
    unfold clampSample
    rw [min_eq_right h2, max_eq_right h1]
  have hr := abs_sub_round (s * 32767)
  rw [abs_sub_comm] at hr
  unfold quantize
  rw [hcl]
  have heq : ((round (s * 32767) : ℤ) : ℚ) / 32767 - s =
      (((round (s * 32767) : ℤ) : ℚ) - s * 32767) / 32767 := by ring
  rw [heq, abs_div]
  have : |(32767 : ℚ)| = 32767 := by norm_num
  rw [this]
  rw [div_le_div_iff₀ (by norm_num) (by norm_num)]
  nlinarith [hr]

/-- C7: encoding a buffer of normalized samples through the codec and decoding
it back returns the original values up to one quantization step; out-of-range
samples are clamped to full scale rather than wrapped; the decoded sample
count is exactly the byte length divided by the fixed 2-byte width. -/
theorem c7_codec_roundtrip (samples : List ℚ)
    (h : ∀ s ∈ samples, -1 ≤ s ∧ s ≤ 1) :
    List.Forall₂ (fun s r => |r - s| ≤ 1 / 32767) samples
      (decodePcm (encodePcm samples)) ∧
    (∀ bs : List ℕ, (decodePcm bs).length = bs.length / 2) ∧
    (∀ s : ℚ, 1 ≤ s → quantize s = 32767) ∧
    (∀ s : ℚ, s ≤ -1 → quantize s = -32767) := by
  refine ⟨?_, decodePcm_length, ?_, ?_⟩
  · rw [decode_encode, List.forall₂_map_right_iff]
    rw [List.forall₂_same]
    intro s hs
    exact quantize_err s (h s hs).1 (h s hs).2
  · intro s hs
    have hcl : clampSample s = 1 := by
      unfold clampSample
      rw [min_eq_left hs]
      norm_num
    unfold quantize
    rw [hcl, one_mul]
    have : ((32767 : ℤ) : ℚ) = (32767 : ℚ) := by norm_cast
    rw [← this, round_intCast]
  · intro s hs
    have hcl : clampSample s = -1 := by
      unfold clampSample
      rw [min_eq_right (by linarith : s ≤ 1), max_eq_left hs]
    unfold quantize
    rw [hcl]
    have : ((-32767 : ℤ) : ℚ) = (-1 : ℚ) * 32767 := by norm_num
    rw [← this, round_intCast]

/-- Witness for C7: the two-sample buffer [1, -1/2]. -/
theorem c7_codec_roundtrip_witness :
    (∀ s ∈ [(1 : ℚ), -1/2], -1 ≤ s ∧ s ≤ 1) ∧
    (List.Forall₂ (fun s r => |r - s| ≤ 1 / 32767) [(1 : ℚ), -1/2]
        (decodePcm (encodePcm [(1 : ℚ), -1/2])) ∧
      (∀ bs : List ℕ, (decodePcm bs).length = bs.length / 2) ∧
      (∀ s : ℚ, 1 ≤ s → quantize s = 32767) ∧
      (∀ s : ℚ, s ≤ -1 → quantize s = -32767)) :=
  ⟨by norm_num, c7_codec_roundtrip [(1 : ℚ), -1/2] (by norm_num)⟩

/-- C6: `disconnect` is a total function of the component state — every
sub-resource access in the source is guarded by `?.` or a try/catch, so it
never throws, including on the initial state where no sub-resource was ever
acquired (mid-handshake) — and it always leaves the session idle:
disconnected, not speaking, no active slots. -/
theorem c6_disconnect_safe (s : AppState) :
    (disconnect s).connected = false ∧
    (disconnect s).isSpeaking = false ∧
    (disconnect s).audioSources = [] ∧
    (disconnect initState).connected = false ∧
    (disconnect initState).isSpeaking = false :=
  ⟨rfl, rfl, rfl, rfl, rfl⟩

end Jarvis
